import Mathlib

/-!
Verification of the annotation-driven video redaction pipeline (src/blur.py)
against its design specification.

The Python source is shallowly embedded: frames and masks are maps from
integer pixel coordinates to abstract values, the OpenCV drawing/filtering
primitives are an abstract structure of deterministic functions, Python
integers are `Int`, Python floats appearing as annotation attribute values
are exact rationals, and the one floating-point computation whose rounding
is observable — `int(0.35 * max(w, h))` — is modelled bit-faithfully as a
binary64 multiplication with round-to-nearest, ties-to-even.
Uncaught Python exceptions are modelled with `Except`/`Option`.
-/

namespace Blur

/-- A decoded video frame: a map from (row, column) to an abstract pixel
value.  Models the numpy image array handed around by `process_video`. -/
abbrev Frame : Type := ℤ → ℤ → ℤ

/-- A single-channel mask buffer with values in {0, 255}, as drawn by the
cv2 rasterizers into `np.zeros((height, width), dtype=np.uint8)`. -/
abbrev Mask : Type := ℤ → ℤ → ℤ

/-- Models `np.where(mask[:, :, None] == 255, blurred_full, frame)`
(blur.py lines 140, 163, 192). -/
def compositeWhere (mask : Mask) (blurred frame : Frame) : Frame :=
  fun y x => if mask y x = 255 then blurred y x else frame y x

/-- The region tuples built by the loader (blur.py lines 42, 53, 69):
`('box', x1, y1, x2, y2, occluded)`, `('ellipse', cx, cy, rx, ry, occluded)`,
`('polygon', points, occluded)`.  Box and polygon coordinates have already
been truncated to integers by the loader; ellipse geometry stays float. -/
inductive Region : Type where
  | box (x1 y1 x2 y2 : ℤ) (occluded : ℤ)
  | ellipse (cx cy rx ry : ℚ) (occluded : ℤ)
  | polygon (pts : List (ℤ × ℤ)) (occluded : ℤ)
  deriving DecidableEq

/-- Models `region[-1]` (blur.py line 109): the occlusion flag is the last tuple
component of every region variant. -/
def Region.occluded : Region → ℤ
  | .box _ _ _ _ o => o
  | .ellipse _ _ _ _ o => o
  | .polygon _ o => o

/-- Truncation toward zero: Python `int(...)` applied to a real value held
as an exact rational. -/
def truncQ (q : ℚ) : ℤ := q.num.tdiv q.den

/-- Bit length of a natural number, fuelled so that it is structurally
recursive (kernel-reducible); the fuel of 128 covers every number this
development ever measures. -/
def bitlen : ℕ → ℕ → ℕ
  | 0, _ => 0
  | fuel + 1, n => if n = 0 then 0 else bitlen fuel (n / 2) + 1

/-- The binary64 (IEEE double) value of the literal `0.35` is
`dbl035 / 2 ^ 54`. -/
def dbl035 : ℕ := 6305039478318694

/-- Python `int(0.35 * m)` for an integer `m` (blur.py lines 132, 154, 184).
`0.35` denotes the binary64 value `dbl035 / 2 ^ 54`; `m` converts to
binary64 exactly; the product is rounded to the nearest binary64 (ties to
even, here: round the 54-bit-scaled product to 53 significant bits) and the
result is truncated toward zero.  Negative `m` is handled by symmetry of
both the rounding and the truncation. -/
def int035 (m : ℤ) : ℤ :=
  let P := dbl035 * m.natAbs
  let L := bitlen 128 P
  let v : ℕ :=
    if L ≤ 53 then P / 2 ^ 54
    else
      let k := L - 53
      let q := P / 2 ^ k
      let r := P % 2 ^ k
      let half := 2 ^ (k - 1)
      let q2 := if half < r ∨ (r = half ∧ q % 2 = 1) then q + 1 else q
      q2 * 2 ^ k / 2 ^ 54
  if m < 0 then -(v : ℤ) else (v : ℤ)

/-- Models `if k % 2 == 0: k += 1` (blur.py lines 133-134, 155-156, 185-186).
Python `%` agrees with `Int.emod` on the positive modulus 2. -/
def oddify (k : ℤ) : ℤ := if k % 2 = 0 then k + 1 else k

/-- Computes `k = int(0.35 * max(w, h))` followed by the even-to-odd adjustment:
the kernel size actually handed to `cv2.GaussianBlur`. -/
def kernelFinal (w h : ℤ) : ℤ := oddify (int035 (max w h))

/-- The kernel-size rule in the specification's own words (§4.4 step 3):
"k = floor(0.35 * max(w,h)); if k is even, k := k+1", with `0.35` read as
the exact rational 7/20 — so `floor` is floor division of `7 * max(w, h)`
by 20.  Kept separate from `kernelFinal` to compare code with spec. -/
def specKernel (w h : ℤ) : ℤ := oddify ((7 * max w h).fdiv 20)

/-- Computes `max(0, min(v, hi))` — the clamp applied to box corners
(blur.py lines 122-125). -/
def clip0 (v hi : ℤ) : ℤ := max 0 (min v hi)

/-- The external OpenCV primitives `process_video` calls per region.  They
are deterministic functions opaque to this development: `gaussianBlur k`
models `cv2.GaussianBlur(·, (k, k), 0)` for a valid kernel size `k`;
the three mask builders model drawing with value 255 into a zeroed
`height × width` buffer (`cv2.rectangle`, `cv2.ellipse` with full sweep,
`cv2.fillPoly`), each taking the buffer dimensions and the shape data. -/
structure CV : Type where
  gaussianBlur : ℕ → Frame → Frame
  rectMask : ℤ → ℤ → ℤ → ℤ → ℤ → ℤ → Mask
  ellipseMask : ℤ → ℤ → ℤ → ℤ → ℤ → ℤ → Mask
  polyMask : ℤ → ℤ → List (ℤ × ℤ) → Mask

/-- Models `cv2.GaussianBlur(frame, (k, k), 0)`: cv2 raises `cv2.error` unless the
kernel size is positive and odd; otherwise the call returns the blurred
frame. -/
def gaussBlur (cv : CV) (k : ℤ) (frame : Frame) : Except Unit Frame :=
  if 0 < k ∧ k % 2 = 1 then .ok (cv.gaussianBlur k.toNat frame) else .error ()

/-- Computes `np.min` over a nonempty coordinate column (blur.py lines 174-177). -/
def npMin (x : ℤ) (xs : List ℤ) : ℤ := xs.foldl min x

/-- Computes `np.max` over a nonempty coordinate column (blur.py lines 174-177). -/
def npMax (x : ℤ) (xs : List ℤ) : ℤ := xs.foldl max x

/-- One iteration of the region loop (blur.py lines 107-193): skip when
`occluded == 1`; otherwise dispatch on the region type — clamp corners
(box only), skip non-positive extents (box and polygon only), derive the
kernel size, blur the whole frame, rasterize the region mask and composite
it.  `.error` models an uncaught exception escaping the loop body: an
invalid Gaussian kernel size, or numpy column indexing into an empty
polygon point array. -/
def processRegion (cv : CV) (width height : ℤ) (frame : Frame) :
    Region → Except Unit (Frame × ℕ)
  | .box x1 y1 x2 y2 occ =>
    if occ = 1 then .ok (frame, 0) else
    let cx1 := clip0 x1 (width - 1)
    let cy1 := clip0 y1 (height - 1)
    let cx2 := clip0 x2 (width - 1)
    let cy2 := clip0 y2 (height - 1)
    let w := cx2 - cx1
    let h := cy2 - cy1
    if w ≤ 0 ∨ h ≤ 0 then .ok (frame, 0)
    else
      match gaussBlur cv (kernelFinal w h) frame with
      | .error e => .error e
      | .ok blurredFull =>
        .ok (compositeWhere (cv.rectMask width height cx1 cy1 cx2 cy2) blurredFull frame, 1)
  | .ellipse cx cy rx ry occ =>
    if occ = 1 then .ok (frame, 0) else
    let cxI := truncQ cx
    let cyI := truncQ cy
    let rxI := truncQ rx
    let ryI := truncQ ry
    let w := rxI * 2
    let h := ryI * 2
    match gaussBlur cv (kernelFinal w h) frame with
    | .error e => .error e
    | .ok blurredFull =>
      .ok (compositeWhere (cv.ellipseMask width height cxI cyI rxI ryI) blurredFull frame, 1)
  | .polygon pts occ =>
    if occ = 1 then .ok (frame, 0) else
    match pts with
    | [] => .error ()
    | p :: rest =>
      let w := npMax p.1 (rest.map Prod.fst) - npMin p.1 (rest.map Prod.fst)
      let h := npMax p.2 (rest.map Prod.snd) - npMin p.2 (rest.map Prod.snd)
      if w ≤ 0 ∨ h ≤ 0 then .ok (frame, 0)
      else
        match gaussBlur cv (kernelFinal w h) frame with
        | .error e => .error e
        | .ok blurredFull =>
          .ok (compositeWhere (cv.polyMask width height (p :: rest)) blurredFull frame, 1)

mutual

/-- An element of the parsed annotation document, as `xml.etree.ElementTree`
presents it: a tag, an attribute dictionary, and a sequence of child
elements (`XmlForest` is that sequence, isomorphic to a list). -/
inductive XmlElem : Type where
  | mk (tag : String) (attrs : List (String × String)) (children : XmlForest)

/-- A sequence of sibling XML elements. -/
inductive XmlForest : Type where
  | nil : XmlForest
  | cons : XmlElem → XmlForest → XmlForest

end

/-- The element's tag. -/
def XmlElem.tag : XmlElem → String
  | .mk t _ _ => t

/-- The element's attribute dictionary. -/
def XmlElem.attrs : XmlElem → List (String × String)
  | .mk _ a _ => a

/-- The element's children. -/
def XmlElem.children : XmlElem → XmlForest
  | .mk _ _ c => c

/-- All descendants of the elements of a forest, in document order — the
`.//` axis underlying `Element.findall('.//tag')`. -/
def descForest : XmlForest → List XmlElem
  | .nil => []
  | .cons (.mk t a cs) rest => .mk t a cs :: (descForest cs ++ descForest rest)

/-- Models `elem.findall('.//tag')` (blur.py lines 34, 35, 46, 57). -/
def findAllDesc (tag : String) (e : XmlElem) : List XmlElem :=
  (descForest e.children).filter (fun c => c.tag = tag)

/-- Models `elem.attrib[key]`: `none` models a raised `KeyError`. -/
def attrGet (e : XmlElem) (key : String) : Option String :=
  go e.attrs
where
  go : List (String × String) → Option String
    | [] => none
    | (k, v) :: rest => if k = key then some v else go rest

/-- Models `elem.attrib.get(key, dflt)` (blur.py line 59). -/
def attrGetD (e : XmlElem) (key dflt : String) : String :=
  (attrGet e key).getD dflt

/-- Python `str.strip()`: drop whitespace from both ends. -/
def pyStrip (cs : List Char) : List Char :=
  (((cs.dropWhile Char.isWhitespace).reverse).dropWhile Char.isWhitespace).reverse

/-- Python `str.split(sep)` for a one-character separator: splits at every
occurrence, keeping empty segments (`"".split(sep) == ['']`). -/
def pySplit (sep : Char) : List Char → List (List Char)
  | [] => [[]]
  | c :: rest =>
    match pySplit sep rest with
    | [] => if c = sep then [[], []] else [[c]]
    | t :: ts => if c = sep then [] :: t :: ts else (c :: t) :: ts

/-- Accumulating decimal-digit evaluator: `none` as soon as a non-digit
occurs.  The empty list yields the accumulator. -/
def digitsValAux : List Char → ℕ → Option ℕ
  | [], acc => some acc
  | c :: rest, acc =>
    if c.isDigit then digitsValAux rest (acc * 10 + (c.toNat - 48)) else none

/-- The value of a nonempty all-digit list; `none` otherwise. -/
def digitsVal : List Char → Option ℕ
  | [] => none
  | c :: rest => digitsValAux (c :: rest) 0

/-- Strip one optional leading sign; returns (negative?, rest). -/
def splitSign : List Char → Bool × List Char
  | '-' :: rest => (true, rest)
  | '+' :: rest => (false, rest)
  | cs => (false, cs)

/-- Python `int(s)` (blur.py lines 36-37, 47-48, 58-59): optional surrounding
whitespace, optional sign, then a nonempty digit run.  `none` models a
raised `ValueError`. -/
def pyInt (cs : List Char) : Option ℤ :=
  let sb := splitSign (pyStrip cs)
  (digitsVal sb.2).map (fun n => if sb.1 then -(n : ℤ) else (n : ℤ))

/-- Python `float(s)` on the plain decimal fragment
`[sign] digits [. digits]` with at least one digit, as an exact rational.
The binary64 rounding of the parsed value is not modelled: it is exact for
every attribute value evaluated in this development, and the loader only
ever truncates these values to integers.  `none` models `ValueError`. -/
def pyFloat (cs : List Char) : Option ℚ :=
  let sb := splitSign (pyStrip cs)
  let ip := sb.2.takeWhile (fun c => c ≠ '.')
  let rest := sb.2.dropWhile (fun c => c ≠ '.')
  let mag : Option ℚ :=
    match rest with
    | [] => (digitsVal ip).map (fun n => (n : ℚ))
    | _ :: fp =>
      if ip = [] ∧ fp = [] then none
      else do
        let i ← digitsValAux ip 0
        let f ← digitsValAux fp 0
        pure ((i : ℚ) + (f : ℚ) / (10 : ℚ) ^ fp.length)
  mag.map (fun q => if sb.1 then -q else q)

/-- The annotation index: Python dict from frame number to the regions of
that frame, in insertion order. -/
abbrev AnnIndex : Type := List (ℤ × List Region)

/-- Models `annotations.setdefault(frame, []).append(region)`
(blur.py lines 43, 54, 70). -/
def annAdd : AnnIndex → ℤ → Region → AnnIndex
  | [], k, r => [(k, [r])]
  | (k2, rs) :: rest, k, r =>
    if k2 = k then (k2, rs ++ [r]) :: rest else (k2, rs) :: annAdd rest k r

/-- Models `annotations.get(frame_idx, [])` (blur.py line 104). -/
def annGet (m : AnnIndex) (k : ℤ) : List Region :=
  (m.lookup k).getD []

/-- blur.py lines 35-43: parse one `box` element into (frame, region).
Every attribute is required; coordinates are parsed as reals and truncated
to integers. -/
def parseBox (b : XmlElem) : Option (ℤ × Region) := do
  let frame ← (attrGet b "frame").bind (fun s => pyInt s.data)
  let occ ← (attrGet b "occluded").bind (fun s => pyInt s.data)
  let x1 ← ((attrGet b "xtl").bind (fun s => pyFloat s.data)).map truncQ
  let y1 ← ((attrGet b "ytl").bind (fun s => pyFloat s.data)).map truncQ
  let x2 ← ((attrGet b "xbr").bind (fun s => pyFloat s.data)).map truncQ
  let y2 ← ((attrGet b "ybr").bind (fun s => pyFloat s.data)).map truncQ
  pure (frame, Region.box x1 y1 x2 y2 occ)

/-- blur.py lines 46-54: parse one `ellipse` element; the center and radii
stay floating-point. -/
def parseEllipse (e : XmlElem) : Option (ℤ × Region) := do
  let frame ← (attrGet e "frame").bind (fun s => pyInt s.data)
  let occ ← (attrGet e "occluded").bind (fun s => pyInt s.data)
  let cx ← (attrGet e "cx").bind (fun s => pyFloat s.data)
  let cy ← (attrGet e "cy").bind (fun s => pyFloat s.data)
  let rx ← (attrGet e "rx").bind (fun s => pyFloat s.data)
  let ry ← (attrGet e "ry").bind (fun s => pyFloat s.data)
  pure (frame, Region.ellipse cx cy rx ry occ)

/-- One `"x,y"` segment (blur.py lines 65-68): `pair.split(',')` must have
exactly two fields, each parsed as a real and truncated. -/
def parsePair (pair : List Char) : Option (ℤ × ℤ) :=
  match pySplit ',' pair with
  | [xs, ys] => do
    let x ← pyFloat xs
    let y ← pyFloat ys
    pure (truncQ x, truncQ y)
  | _ => none

/-- blur.py lines 62-68: walk the `;`-separated segments, skipping empty
ones, parsing each remaining pair. -/
def parsePoints : List (List Char) → Option (List (ℤ × ℤ))
  | [] => some []
  | p :: rest =>
    if p = [] then parsePoints rest
    else do
      let xy ← parsePair p
      let tail ← parsePoints rest
      pure (xy :: tail)

/-- blur.py lines 57-70: parse one `polygon` element; `occluded` defaults
to "0" when absent, `points` is required. -/
def parsePolygon (pg : XmlElem) : Option (ℤ × Region) := do
  let frame ← (attrGet pg "frame").bind (fun s => pyInt s.data)
  let occ ← pyInt (attrGetD pg "occluded" "0").data
  let ptsStr ← attrGet pg "points"
  let pts ← parsePoints (pySplit ';' (pyStrip ptsStr.data))
  pure (frame, Region.polygon pts occ)

/-- Fold one parser over a list of elements, appending each parsed region
into the index; the first parse failure aborts (the Python exception
escapes `process_video`). -/
def addParsed (parse : XmlElem → Option (ℤ × Region)) :
    AnnIndex → List XmlElem → Option AnnIndex
  | ann, [] => some ann
  | ann, e :: rest => do
    let fr ← parse e
    addParsed parse (annAdd ann fr.1 fr.2) rest

/-- blur.py lines 34-70, per track: all box descendants, then all ellipse
descendants, then all polygon descendants. -/
def parseTrack (ann : AnnIndex) (track : XmlElem) : Option AnnIndex := do
  let a1 ← addParsed parseBox ann (findAllDesc "box" track)
  let a2 ← addParsed parseEllipse a1 (findAllDesc "ellipse" track)
  addParsed parsePolygon a2 (findAllDesc "polygon" track)

/-- Fold `parseTrack` over the track list. -/
def parseTracks : AnnIndex → List XmlElem → Option AnnIndex
  | ann, [] => some ann
  | ann, t :: rest => do
    let a ← parseTrack ann t
    parseTracks a rest

/-- The whole annotation-building phase (blur.py lines 29-70), from the
parsed document root. -/
def parseAnn (root : XmlElem) : Option AnnIndex :=
  parseTracks [] (findAllDesc "track" root)

/-- The per-frame region loop body (blur.py lines 104-193): fold this
frame's regions over the frame buffer, counting the processed regions.
An `.error` is an exception escaping the loop. -/
def processFrame (cv : CV) (width height : ℤ) :
    List Region → Frame → Except Unit (Frame × ℕ)
  | [], frame => .ok (frame, 0)
  | r :: rest, frame =>
    match processRegion cv width height frame r with
    | .error e => .error e
    | .ok (f2, n) =>
      match processFrame cv width height rest f2 with
      | .error e => .error e
      | .ok (f3, m) => .ok (f3, n + m)

/-- The properties and decodable content of an opened `cv2.VideoCapture`:
the descriptors read at open time (blur.py lines 81-84, after `int(...)`)
and the frame sequence that `cap.read()` yields before end of stream.
`totalFrames` is the advisory `CAP_PROP_FRAME_COUNT` field. -/
structure Capture : Type where
  fps : ℤ
  width : ℤ
  height : ℤ
  totalFrames : ℤ
  frames : List Frame

/-- The frame loop (blur.py lines 98-196): read until end of stream, apply
this frame index's regions, write the (possibly modified) frame, advance
`frame_idx`.  Returns the loop status, the frames written in order, the
final `frame_idx` and the final `processed_regions`; an `.error` status
carries the prefix already written before the exception escaped. -/
def frameLoop (cv : CV) (width height : ℤ) (ann : AnnIndex) :
    List Frame → ℕ → ℕ → Except Unit Unit × List Frame × ℕ × ℕ
  | [], idx, preg => (.ok (), [], idx, preg)
  | f :: rest, idx, preg =>
    match processFrame cv width height (annGet ann (idx : ℤ)) f with
    | .error e => (.error e, [], idx, preg)
    | .ok (f2, n) =>
      match frameLoop cv width height ann rest (idx + 1) (preg + n) with
      | (st, ws, idx2, preg2) => (st, f2 :: ws, idx2, preg2)

/-- Uncaught Python exceptions that can escape `process_video`. -/
inductive PyErr : Type where
  | malformed
  | badAttr
  | cvErr
  deriving DecidableEq

/-- The ambient effects `process_video` touches: `os.path.exists`,
`ET.parse` (`none` models a raised `xml.etree.ElementTree.ParseError`),
`cv2.VideoCapture` (`none` models `cap.isOpened()` returning false),
`cv2.VideoWriter` (`false` models `out.isOpened()` returning false),
and the OpenCV region primitives. -/
structure Env : Type where
  pathExists : String → Bool
  parseXml : String → Option XmlElem
  capture : String → Option Capture
  writerOpens : String → Bool
  cv : CV

/-- What one `process_video` call did: the Python-level outcome (returned
bool, or an escaped exception), the frames written to the destination, and
whether the decoder/encoder handles are still open when control leaves the
function. -/
structure PVOut : Type where
  result : Except PyErr Bool
  written : List Frame
  capOpenAtExit : Bool
  outOpenAtExit : Bool

/-- blur.py lines 7-206 (`process_video`).  Missing input or annotation
file: early `return False` before anything opens.  `ET.parse` and the
attribute loop have no handler, so their exceptions escape before any
handle opens.  A capture that fails to open: `return False` with no
decoder handle acquired.  A writer that fails to open: `cap.release()` is
called (line 91), then `return False`.  Normal loop termination releases
both handles (lines 198-199); but the loop body has no try/finally, so an
exception inside it escapes with both handles still open. -/
def process_video (env : Env) (inputVideo outputVideo xmlFile : String) : PVOut :=
  if ¬ env.pathExists inputVideo then ⟨.ok false, [], false, false⟩
  else if ¬ env.pathExists xmlFile then ⟨.ok false, [], false, false⟩
  else
    match env.parseXml xmlFile with
    | none => ⟨.error .malformed, [], false, false⟩
    | some root =>
      match parseAnn root with
      | none => ⟨.error .badAttr, [], false, false⟩
      | some ann =>
        match env.capture inputVideo with
        | none => ⟨.ok false, [], false, false⟩
        | some cap =>
          if ¬ env.writerOpens outputVideo then ⟨.ok false, [], false, false⟩
          else
            match frameLoop env.cv cap.width cap.height ann cap.frames 0 0 with
            | (.error _, ws, _, _) => ⟨.error .cvErr, ws, true, true⟩
            | (.ok _, ws, _, _) => ⟨.ok true, ws, false, false⟩

/-- blur.py lines 237-247: the triplet loop of `main`.  `process_video` is
called with no surrounding try/except, so an escaped exception ends the
whole batch; a `False` return increments the failure counter and the loop
continues. -/
def batch (env : Env) :
    List (String × String × String) → ℕ → ℕ → Except PyErr (ℕ × ℕ)
  | [], sCnt, fCnt => .ok (sCnt, fCnt)
  | t :: rest, sCnt, fCnt =>
    match (process_video env t.1 t.2.1 t.2.2).result with
    | .error e => .error e
    | .ok true => batch env rest (sCnt + 1) fCnt
    | .ok false => batch env rest sCnt (fCnt + 1)

/-- The same environment with every capture's advisory frame-count field
replaced: used to state that the loop is not gated on that field. -/
def Env.withTotalFrames (env : Env) (tf : ℤ) : Env :=
  { env with
    capture := fun s => Option.map (fun c => { c with totalFrames := tf }) (env.capture s) }

/-- The batch loop's success test: `process_video(...)` returned True. -/
def tripletOk (env : Env) (t : String × String × String) : Bool :=
  match (process_video env t.1 t.2.1 t.2.2).result with
  | .ok true => true
  | _ => false

/-- The batch loop's recorded-failure test: `process_video(...)` returned
False. -/
def tripletFailed (env : Env) (t : String × String × String) : Bool :=
  match (process_video env t.1 t.2.1 t.2.2).result with
  | .ok false => true
  | _ => false

/-- Holds when `process_video` on this triplet returns (rather than raising). -/
def noRaise (env : Env) (t : String × String × String) : Bool :=
  match (process_video env t.1 t.2.1 t.2.2).result with
  | .ok _ => true
  | .error _ => false

/-! ### Concrete instances used to exercise the model on closed inputs -/

/-- An all-zero (black) frame. -/
def frame0 : Frame := fun _ _ => 0

/-- A second, distinct constant frame. -/
def frame1 : Frame := fun _ _ => 1

/-- A concrete choice of OpenCV primitives: the blur leaves the frame
unchanged (which is exactly what `cv2.GaussianBlur` does at kernel size 1)
and the rectangle rasterizer is the ideal inclusive filled rectangle. -/
def cvId : CV where
  gaussianBlur := fun _ f => f
  rectMask := fun _ _ x1 y1 x2 y2 => fun y x =>
    if x1 ≤ x ∧ x ≤ x2 ∧ y1 ≤ y ∧ y ≤ y2 then 255 else 0
  ellipseMask := fun _ _ _ _ _ _ => fun _ _ => 0
  polyMask := fun _ _ _ => fun _ _ => 0

/-- An annotation document with no tracks at all. -/
def docEmpty : XmlElem := .mk "annos" [] .nil

/-- An annotation document whose only region is an ellipse with radius
`-3` in both axes at frame 0: its kernel size computes to `-1`, so
`cv2.GaussianBlur` raises inside the frame loop. -/
def docNegEllipse : XmlElem :=
  .mk "annos" []
    (.cons
      (.mk "track" []
        (.cons
          (.mk "ellipse"
            [("frame", "0"), ("occluded", "0"), ("cx", "0"), ("cy", "0"),
             ("rx", "-3"), ("ry", "-3")] .nil)
          .nil))
      .nil)

/-- A one-frame 100×100 capture. -/
def capOne : Capture := ⟨30, 100, 100, 1, [frame0]⟩

/-- A zero-frame 100×100 capture. -/
def capNone : Capture := ⟨30, 100, 100, 0, []⟩

/-- Environment for the batch-abort counterexample: every path exists,
every video opens, but the annotation file "bad.xml" is malformed
(`ET.parse` raises) while every other annotation file parses to a
document with no tracks. -/
def envBad : Env :=
  ⟨fun _ => true,
   fun s => if s = "bad.xml" then none else some docEmpty,
   fun _ => some capNone,
   fun _ => true,
   cvId⟩

/-- Environment for the handle-leak counterexample: everything opens and
parses, and the annotation document is `docNegEllipse`, so the frame loop
raises mid-stream. -/
def envNegEllipse : Env :=
  ⟨fun _ => true, fun _ => some docNegEllipse, fun _ => some capOne,
   fun _ => true, cvId⟩

/-- Environment in which exactly the input video "missing.mp4" is absent
and everything else succeeds with a trackless annotation document. -/
def envMissing : Env :=
  ⟨fun s => if s = "missing.mp4" then false else true,
   fun _ => some docEmpty,
   fun _ => some capNone,
   fun _ => true,
   cvId⟩

/-! ### General lemmas about the kernel-size computation -/

/-- The even-to-odd adjustment always produces an odd value (Python `%`
agrees with `Int.emod` on the modulus 2). -/
theorem oddify_odd (k : ℤ) : oddify k % 2 = 1 := by
  unfold oddify
  split <;> omega

/-- The adjusted kernel of a nonnegative raw kernel is at least 1. -/
theorem oddify_ge_one {k : ℤ} (h : 0 ≤ k) : 1 ≤ oddify k := by
  unfold oddify
  split <;> omega

/-- Shows `int(0.35 * m)` is nonnegative for nonnegative `m`. -/
theorem int035_nonneg {m : ℤ} (h : 0 ≤ m) : 0 ≤ int035 m := by
  simp only [int035]
  rw [if_neg (by omega : ¬ m < 0)]
  omega

/-- The kernel size finally used is always odd. -/
theorem kernelFinal_odd (w h : ℤ) : kernelFinal w h % 2 = 1 :=
  oddify_odd _

/-- A nonnegative raw kernel value yields a final kernel of at least 1. -/
theorem kernelFinal_ge_one_of_raw {w h : ℤ}
    (hk : 0 ≤ int035 (max w h)) : 1 ≤ kernelFinal w h :=
  oddify_ge_one hk

/-- For strictly positive extent the kernel size is at least 1. -/
theorem kernelFinal_ge_one {w h : ℤ} (hw : 0 < w) :
    1 ≤ kernelFinal w h :=
  kernelFinal_ge_one_of_raw (int035_nonneg (hw.le.trans (le_max_left w h)))

/-- A positive raw kernel value certifies a valid `GaussianBlur` call. -/
theorem gaussBlur_ok (cv : CV) {k : ℤ} (frame : Frame)
    (h1 : 0 < k) (h2 : k % 2 = 1) :
    gaussBlur cv k frame = .ok (cv.gaussianBlur k.toNat frame) := by
  unfold gaussBlur
  rw [if_pos ⟨h1, h2⟩]

/-- Compositing a frame with itself changes nothing. -/
theorem compositeWhere_self (mask : Mask) (f : Frame) :
    compositeWhere mask f f = f := by
  funext y x
  unfold compositeWhere
  split <;> rfl

/-! ### Branch lemmas for the region step -/

/-- A box whose clamped extent is non-positive is skipped. -/
theorem processRegion_box_skip (cv : CV) (W H : ℤ) (frame : Frame)
    (x1 y1 x2 y2 occ : ℤ) (hocc : occ ≠ 1)
    (hdeg : clip0 x2 (W - 1) - clip0 x1 (W - 1) ≤ 0 ∨
            clip0 y2 (H - 1) - clip0 y1 (H - 1) ≤ 0) :
    processRegion cv W H frame (.box x1 y1 x2 y2 occ) = .ok (frame, 0) := by
  simp only [processRegion]
  rw [if_neg hocc, if_pos hdeg]

/-- A box with positive clamped extent blurs the whole frame at the kernel
derived from the clamped extent and composites through the rectangle mask
rasterized at the clamped corners. -/
theorem processRegion_box_go (cv : CV) (W H : ℤ) (frame : Frame)
    (x1 y1 x2 y2 occ : ℤ) (hocc : occ ≠ 1)
    (hw : 0 < clip0 x2 (W - 1) - clip0 x1 (W - 1))
    (hh : 0 < clip0 y2 (H - 1) - clip0 y1 (H - 1)) :
    processRegion cv W H frame (.box x1 y1 x2 y2 occ) =
      .ok (compositeWhere
            (cv.rectMask W H (clip0 x1 (W - 1)) (clip0 y1 (H - 1))
              (clip0 x2 (W - 1)) (clip0 y2 (H - 1)))
            (cv.gaussianBlur
              (kernelFinal (clip0 x2 (W - 1) - clip0 x1 (W - 1))
                (clip0 y2 (H - 1) - clip0 y1 (H - 1))).toNat frame)
            frame, 1) := by
  simp only [processRegion]
  rw [if_neg hocc, if_neg (by omega), gaussBlur_ok cv frame
    (lt_of_lt_of_le one_pos (kernelFinal_ge_one hw)) (kernelFinal_odd _ _)]

/-- An ellipse whose raw kernel value is nonnegative blurs the frame and
composites through the ellipse mask rasterized at the truncated,
unclamped center and radii. -/
theorem processRegion_ellipse_go (cv : CV) (W H : ℤ) (frame : Frame)
    (cx cy rx ry : ℚ) (occ : ℤ) (hocc : occ ≠ 1)
    (hk : 0 ≤ int035 (max (truncQ rx * 2) (truncQ ry * 2))) :
    processRegion cv W H frame (.ellipse cx cy rx ry occ) =
      .ok (compositeWhere
            (cv.ellipseMask W H (truncQ cx) (truncQ cy) (truncQ rx) (truncQ ry))
            (cv.gaussianBlur
              (kernelFinal (truncQ rx * 2) (truncQ ry * 2)).toNat frame)
            frame, 1) := by
  simp only [processRegion]
  rw [if_neg hocc, gaussBlur_ok cv frame
    (lt_of_lt_of_le one_pos (kernelFinal_ge_one_of_raw hk)) (kernelFinal_odd _ _)]

/-- A polygon whose bounding extent is non-positive is skipped. -/
theorem processRegion_poly_skip (cv : CV) (W H : ℤ) (frame : Frame)
    (p : ℤ × ℤ) (rest : List (ℤ × ℤ)) (occ : ℤ) (hocc : occ ≠ 1)
    (hdeg : npMax p.1 (rest.map Prod.fst) - npMin p.1 (rest.map Prod.fst) ≤ 0 ∨
            npMax p.2 (rest.map Prod.snd) - npMin p.2 (rest.map Prod.snd) ≤ 0) :
    processRegion cv W H frame (.polygon (p :: rest) occ) = .ok (frame, 0) := by
  simp only [processRegion]
  rw [if_neg hocc, if_pos hdeg]

/-- A polygon with positive bounding extent blurs the frame and composites
through the polygon mask rasterized at the unclamped vertex list. -/
theorem processRegion_poly_go (cv : CV) (W H : ℤ) (frame : Frame)
    (p : ℤ × ℤ) (rest : List (ℤ × ℤ)) (occ : ℤ) (hocc : occ ≠ 1)
    (hw : 0 < npMax p.1 (rest.map Prod.fst) - npMin p.1 (rest.map Prod.fst))
    (hh : 0 < npMax p.2 (rest.map Prod.snd) - npMin p.2 (rest.map Prod.snd)) :
    processRegion cv W H frame (.polygon (p :: rest) occ) =
      .ok (compositeWhere (cv.polyMask W H (p :: rest))
            (cv.gaussianBlur
              (kernelFinal
                (npMax p.1 (rest.map Prod.fst) - npMin p.1 (rest.map Prod.fst))
                (npMax p.2 (rest.map Prod.snd) - npMin p.2 (rest.map Prod.snd))).toNat
              frame)
            frame, 1) := by
  simp only [processRegion]
  rw [if_neg hocc, if_neg (by omega), gaussBlur_ok cv frame
    (lt_of_lt_of_le one_pos (kernelFinal_ge_one hw)) (kernelFinal_odd _ _)]

/-! ### Lemmas about the frame loop, the batch loop and the handle state -/

/-- A successful frame-loop run writes exactly one frame per frame read, in
reading order: the written list has the source's length, the frame index
advances by that length, and the i-th written frame is the processed i-th
source frame. -/
theorem frameLoop_ok_spec (cv : CV) (W H : ℤ) (ann : AnnIndex) :
    ∀ (fs : List Frame) (idx preg : ℕ) (ws : List Frame) (idx2 preg2 : ℕ),
      frameLoop cv W H ann fs idx preg = (.ok (), ws, idx2, preg2) →
      ws.length = fs.length ∧ idx2 = idx + fs.length ∧
      ∀ i (hi : i < fs.length) (hw : i < ws.length), ∃ n,
        processFrame cv W H (annGet ann ((idx + i : ℕ) : ℤ)) (fs.get ⟨i, hi⟩) =
          .ok (ws.get ⟨i, hw⟩, n)
  | [], idx, preg, ws, idx2, preg2, h => by
    simp only [frameLoop, Prod.mk.injEq] at h
    obtain ⟨-, hws, hidx, -⟩ := h
    subst hws hidx
    refine ⟨rfl, by simp, ?_⟩
    intro i hi
    exact absurd hi (by simp)
  | f :: rest, idx, preg, ws, idx2, preg2, h => by
    rcases hpf : processFrame cv W H (annGet ann (idx : ℤ)) f with e | ⟨f2, n⟩
    · rw [show frameLoop cv W H ann (f :: rest) idx preg =
            ((.error e, [], idx, preg) : Except Unit Unit × List Frame × ℕ × ℕ) from by
          simp [frameLoop, hpf]] at h
      simp at h
    · rcases hfl : frameLoop cv W H ann rest (idx + 1) (preg + n) with ⟨st, ws3, i3, p3⟩
      rw [show frameLoop cv W H ann (f :: rest) idx preg = (st, f2 :: ws3, i3, p3) from by
          simp [frameLoop, hpf, hfl]] at h
      simp only [Prod.mk.injEq] at h
      obtain ⟨hst, hws, hi2, hp2⟩ := h
      subst hst hws hi2 hp2
      obtain ⟨hlen, hidx, hmap⟩ :=
        frameLoop_ok_spec cv W H ann rest (idx + 1) (preg + n) ws3 i3 p3 hfl
      refine ⟨by simp [hlen], by simp [hidx]; omega, ?_⟩
      intro i hi hw
      cases i with
      | zero =>
        exact ⟨n, by simpa using hpf⟩
      | succ j =>
        have hj : j < rest.length := by simpa using hi
        have hwj : j < ws3.length := by simpa using hw
        obtain ⟨m, hm⟩ := hmap j hj hwj
        refine ⟨m, ?_⟩
        have harith : ((idx + 1 + j : ℕ) : ℤ) = ((idx + (j + 1) : ℕ) : ℤ) := by
          omega
        rw [harith] at hm
        simpa using hm

/-- The advisory total-frame-count descriptor plays no part in
`process_video`: replacing it changes nothing. -/
theorem process_video_totalFrames (env : Env) (tf : ℤ)
    (iv ov xf : String) :
    process_video (env.withTotalFrames tf) iv ov xf = process_video env iv ov xf := by
  unfold process_video Env.withTotalFrames
  cases henv : env.capture iv <;> simp [henv]

/-- When no listed triplet raises, the batch loop runs to the end and
returns the two counters, each advanced by the number of triplets whose
`process_video` returned True resp. False. -/
theorem batch_ok_spec (env : Env) :
    ∀ (ts : List (String × String × String)) (sCnt fCnt : ℕ),
      (∀ t ∈ ts, noRaise env t = true) →
      batch env ts sCnt fCnt =
        .ok (sCnt + ts.countP (tripletOk env), fCnt + ts.countP (tripletFailed env))
  | [], sCnt, fCnt, _ => by simp [batch]
  | t :: rest, sCnt, fCnt, h => by
    have ht := h t (List.mem_cons_self t rest)
    have hrest := fun u hu => h u (List.mem_cons_of_mem t hu)
    simp only [batch]
    cases hr : (process_video env t.1 t.2.1 t.2.2).result with
    | error e =>
      rw [noRaise, hr] at ht
      simp at ht
    | ok b =>
      cases b with
      | true =>
        rw [batch_ok_spec env rest (sCnt + 1) fCnt hrest]
        have h1 : tripletOk env t = true := by rw [tripletOk, hr]
        have h2 : tripletFailed env t = false := by rw [tripletFailed, hr]
        rw [List.countP_cons, List.countP_cons, h1, h2]
        simp
        omega
      | false =>
        rw [batch_ok_spec env rest sCnt (fCnt + 1) hrest]
        have h1 : tripletOk env t = false := by rw [tripletOk, hr]
        have h2 : tripletFailed env t = true := by rw [tripletFailed, hr]
        rw [List.countP_cons, List.countP_cons, h1, h2]
        simp
        omega

/-- When no listed triplet raises, every triplet is counted exactly once:
as a success or as a recorded failure. -/
theorem countP_ok_failed (env : Env) :
    ∀ (ts : List (String × String × String)),
      (∀ t ∈ ts, noRaise env t = true) →
      ts.countP (tripletOk env) + ts.countP (tripletFailed env) = ts.length
  | [], _ => by simp
  | t :: rest, h => by
    have ht := h t (List.mem_cons_self t rest)
    have hrest := fun u hu => h u (List.mem_cons_of_mem t hu)
    have ih := countP_ok_failed env rest hrest
    rw [List.countP_cons, List.countP_cons, List.length_cons]
    rw [noRaise] at ht
    cases hr : (process_video env t.1 t.2.1 t.2.2).result with
    | error e => rw [hr] at ht; simp at ht
    | ok b =>
      have h1 : tripletOk env t = b := by rw [tripletOk, hr]; cases b <;> rfl
      have h2 : tripletFailed env t = !b := by rw [tripletFailed, hr]; cases b <;> rfl
      rw [h1, h2]
      cases b <;> simp <;> omega

/-- Every exit of `process_video` either leaves both handles closed or is
the in-loop-exception exit, which reports `cvErr` and leaves both open. -/
theorem process_video_handle_cases (env : Env) (iv ov xf : String) :
    ((process_video env iv ov xf).capOpenAtExit = false ∧
     (process_video env iv ov xf).outOpenAtExit = false) ∨
    ((process_video env iv ov xf).result = .error .cvErr ∧
     (process_video env iv ov xf).capOpenAtExit = true ∧
     (process_video env iv ov xf).outOpenAtExit = true) := by
  unfold process_video
  split
  · exact .inl ⟨rfl, rfl⟩
  split
  · exact .inl ⟨rfl, rfl⟩
  split
  · exact .inl ⟨rfl, rfl⟩
  split
  · exact .inl ⟨rfl, rfl⟩
  split
  · exact .inl ⟨rfl, rfl⟩
  split
  · exact .inl ⟨rfl, rfl⟩
  split
  · exact .inr ⟨rfl, rfl, rfl⟩
  · exact .inl ⟨rfl, rfl⟩

/-- Occluded regions short-circuit before any other work (shared helper:
the `continue` on blur.py line 111). -/
theorem processRegion_skip_occluded (cv : CV) (W H : ℤ) (frame : Frame)
    (r : Region) (h : r.occluded = 1) :
    processRegion cv W H frame r = .ok (frame, 0) := by
  cases r with
  | box x1 y1 x2 y2 occ =>
    simp only [Region.occluded] at h
    simp only [processRegion]
    rw [if_pos h]
  | ellipse cx cy rx ry occ =>
    simp only [Region.occluded] at h
    simp only [processRegion]
    rw [if_pos h]
  | polygon pts occ =>
    simp only [Region.occluded] at h
    simp only [processRegion]
    rw [if_pos h]

/-! ### Claim theorems -/

/-- C4: a region whose occluded flag equals 1 is skipped entirely — the
frame is returned unchanged, so no pixel attributable to the region
changes, and the processed-region counter is not incremented. -/
theorem occluded_region_skipped (cv : CV) (W H : ℤ) (frame : Frame)
    (r : Region) (h : r.occluded = 1) :
    processRegion cv W H frame r = .ok (frame, 0) :=
  processRegion_skip_occluded cv W H frame r h

/-- Witness for `occluded_region_skipped`: a concrete occluded box on a
black 100×100 frame is returned untouched and uncounted. -/
theorem occluded_region_skipped_witness :
    (Region.box 10 10 50 50 1).occluded = 1 ∧
    processRegion cvId 100 100 frame0 (Region.box 10 10 50 50 1) = .ok (frame0, 0) :=
  ⟨rfl, occluded_region_skipped cvId 100 100 frame0 (Region.box 10 10 50 50 1) rfl⟩

/-- C8: compositing through a binary mask is idempotent — compositing the
same mask and the same blurred copy into the frame twice gives the same
frame as compositing once. -/
theorem composite_idempotent (mask : Mask) (blurred frame : Frame) :
    compositeWhere mask blurred (compositeWhere mask blurred frame) =
      compositeWhere mask blurred frame := by
  funext y x
  unfold compositeWhere
  by_cases h : mask y x = 255 <;> simp [h]

/-- C7: an ellipse region with rx = 0 and ry = 0 does not crash the
pipeline — the kernel size is forced from 0 to the valid value 1 — and is
a pixel-level no-op, because a 1×1 Gaussian blur returns the frame
unchanged and compositing a frame with itself changes nothing. -/
theorem degenerate_ellipse_noop (cv : CV) (W H : ℤ) (frame : Frame)
    (cx cy : ℚ) (occ : ℤ) (hblur : cv.gaussianBlur 1 frame = frame) :
    processRegion cv W H frame (.ellipse cx cy 0 0 occ) =
      .ok (frame, if occ = 1 then 0 else 1) := by
  by_cases hocc : occ = 1
  · rw [if_pos hocc]
    exact processRegion_skip_occluded cv W H frame _ hocc
  · rw [if_neg hocc]
    rw [processRegion_ellipse_go cv W H frame cx cy 0 0 occ hocc (by decide)]
    rw [show (kernelFinal (truncQ (0 : ℚ) * 2) (truncQ (0 : ℚ) * 2)).toNat = 1 from by decide]
    rw [hblur, compositeWhere_self]

/-- Witness for `degenerate_ellipse_noop`: with the identity 1×1 blur, a
degenerate ellipse at (2,2) on a black frame leaves it untouched. -/
theorem degenerate_ellipse_noop_witness :
    cvId.gaussianBlur 1 frame0 = frame0 ∧
    processRegion cvId 100 100 frame0 (.ellipse 2 2 0 0 0) =
      .ok (frame0, if (0 : ℤ) = 1 then 0 else 1) :=
  ⟨rfl, degenerate_ellipse_noop cvId 100 100 frame0 2 2 0 rfl⟩

/-- C3 counterexample: at bounding extent 360×360— a realistic region
size — the code computes kernel 125, while the claim's formula
`odd(floor(0.35*max(w,h)))` gives 127: the binary64 product `0.35 * 360`
is 125.99999999999999, so truncation lands two below the exact floor. -/
theorem kernel_below_floor_formula :
    kernelFinal 360 360 = 125 ∧ specKernel 360 360 = 127 := by
  constructor <;> decide

/-- C3 amended: the kernel is the truncated-and-oddified binary64 product
(not the exact floor formula); it is always odd and at least 1 for any
strictly positive extent, and Scenario D (a 30×40 bounding box) yields
kernel 15. -/
theorem kernel_odd_ge_one_scenarioD (w h : ℤ) (hw : 0 < w) (hh : 0 < h) :
    kernelFinal w h = oddify (int035 (max w h)) ∧
    kernelFinal w h % 2 = 1 ∧ 1 ≤ kernelFinal w h ∧
    kernelFinal 30 40 = 15 :=
  ⟨rfl, kernelFinal_odd w h, kernelFinal_ge_one hw, by decide⟩

/-- Witness for `kernel_odd_ge_one_scenarioD` at the Scenario D extent. -/
theorem kernel_odd_ge_one_scenarioD_witness :
    0 < (30 : ℤ) ∧ 0 < (40 : ℤ) ∧
    (kernelFinal 30 40 = oddify (int035 (max 30 40)) ∧
     kernelFinal 30 40 % 2 = 1 ∧ 1 ≤ kernelFinal 30 40 ∧
     kernelFinal 30 40 = 15) :=
  ⟨by decide, by decide, kernel_odd_ge_one_scenarioD 30 40 (by decide) (by decide)⟩

/-- C9: the occlusion test is exact equality with 1, so a region whose
occluded attribute parsed to any other integer (e.g. 2 or -1) is treated
as not occluded: it is redacted (blur composited through its mask) and
counted. -/
theorem occluded_ne_one_redacted (cv : CV) (W H : ℤ) (frame : Frame)
    (x1 y1 x2 y2 occ : ℤ) (hocc : occ ≠ 1)
    (hw : 0 < clip0 x2 (W - 1) - clip0 x1 (W - 1))
    (hh : 0 < clip0 y2 (H - 1) - clip0 y1 (H - 1)) :
    processRegion cv W H frame (.box x1 y1 x2 y2 occ) =
      .ok (compositeWhere
            (cv.rectMask W H (clip0 x1 (W - 1)) (clip0 y1 (H - 1))
              (clip0 x2 (W - 1)) (clip0 y2 (H - 1)))
            (cv.gaussianBlur
              (kernelFinal (clip0 x2 (W - 1) - clip0 x1 (W - 1))
                (clip0 y2 (H - 1) - clip0 y1 (H - 1))).toNat frame)
            frame, 1) :=
  processRegion_box_go cv W H frame x1 y1 x2 y2 occ hocc hw hh

/-- Witness for `occluded_ne_one_redacted` at occluded values 2 and -1. -/
theorem occluded_ne_one_redacted_witness :
    ((2 : ℤ) ≠ 1 ∧
     processRegion cvId 100 100 frame0 (.box 10 10 50 50 2) =
       .ok (compositeWhere
             (cvId.rectMask 100 100 (clip0 10 (100 - 1)) (clip0 10 (100 - 1))
               (clip0 50 (100 - 1)) (clip0 50 (100 - 1)))
             (cvId.gaussianBlur
               (kernelFinal (clip0 50 (100 - 1) - clip0 10 (100 - 1))
                 (clip0 50 (100 - 1) - clip0 10 (100 - 1))).toNat frame0)
             frame0, 1)) ∧
    ((-1 : ℤ) ≠ 1 ∧
     processRegion cvId 100 100 frame0 (.box 10 10 50 50 (-1)) =
       .ok (compositeWhere
             (cvId.rectMask 100 100 (clip0 10 (100 - 1)) (clip0 10 (100 - 1))
               (clip0 50 (100 - 1)) (clip0 50 (100 - 1)))
             (cvId.gaussianBlur
               (kernelFinal (clip0 50 (100 - 1) - clip0 10 (100 - 1))
                 (clip0 50 (100 - 1) - clip0 10 (100 - 1))).toNat frame0)
             frame0, 1)) :=
  ⟨⟨by decide,
    occluded_ne_one_redacted cvId 100 100 frame0 10 10 50 50 2
      (by decide) (by decide) (by decide)⟩,
   ⟨by decide,
    occluded_ne_one_redacted cvId 100 100 frame0 10 10 50 50 (-1)
      (by decide) (by decide) (by decide)⟩⟩

/-- C6: box corners are clamped into `[0, width-1] × [0, height-1]` before
rasterization while ellipse and polygon geometry reaches its rasterizer
unclamped, and any box or polygon whose (for boxes: clamped) bounding
extent is non-positive is skipped with the frame and counter unchanged. -/
theorem clamping_and_degenerate_skip (cv : CV) (W H : ℤ) (frame : Frame)
    (x1 y1 x2 y2 occB : ℤ) (cx cy rx ry : ℚ) (occE : ℤ)
    (p : ℤ × ℤ) (rest : List (ℤ × ℤ)) (occP : ℤ)
    (hW : 1 ≤ W) (hH : 1 ≤ H)
    (hoccB : occB ≠ 1) (hoccE : occE ≠ 1) (hoccP : occP ≠ 1) :
    (0 ≤ clip0 x1 (W - 1) ∧ clip0 x1 (W - 1) ≤ W - 1 ∧
     0 ≤ clip0 y1 (H - 1) ∧ clip0 y1 (H - 1) ≤ H - 1 ∧
     0 ≤ clip0 x2 (W - 1) ∧ clip0 x2 (W - 1) ≤ W - 1 ∧
     0 ≤ clip0 y2 (H - 1) ∧ clip0 y2 (H - 1) ≤ H - 1) ∧
    ((clip0 x2 (W - 1) - clip0 x1 (W - 1) ≤ 0 ∨
      clip0 y2 (H - 1) - clip0 y1 (H - 1) ≤ 0) →
      processRegion cv W H frame (.box x1 y1 x2 y2 occB) = .ok (frame, 0)) ∧
    (0 < clip0 x2 (W - 1) - clip0 x1 (W - 1) →
     0 < clip0 y2 (H - 1) - clip0 y1 (H - 1) →
      processRegion cv W H frame (.box x1 y1 x2 y2 occB) =
        .ok (compositeWhere
              (cv.rectMask W H (clip0 x1 (W - 1)) (clip0 y1 (H - 1))
                (clip0 x2 (W - 1)) (clip0 y2 (H - 1)))
              (cv.gaussianBlur
                (kernelFinal (clip0 x2 (W - 1) - clip0 x1 (W - 1))
                  (clip0 y2 (H - 1) - clip0 y1 (H - 1))).toNat frame)
              frame, 1)) ∧
    (0 ≤ int035 (max (truncQ rx * 2) (truncQ ry * 2)) →
      processRegion cv W H frame (.ellipse cx cy rx ry occE) =
        .ok (compositeWhere
              (cv.ellipseMask W H (truncQ cx) (truncQ cy) (truncQ rx) (truncQ ry))
              (cv.gaussianBlur
                (kernelFinal (truncQ rx * 2) (truncQ ry * 2)).toNat frame)
              frame, 1)) ∧
    ((npMax p.1 (rest.map Prod.fst) - npMin p.1 (rest.map Prod.fst) ≤ 0 ∨
      npMax p.2 (rest.map Prod.snd) - npMin p.2 (rest.map Prod.snd) ≤ 0) →
      processRegion cv W H frame (.polygon (p :: rest) occP) = .ok (frame, 0)) ∧
    (0 < npMax p.1 (rest.map Prod.fst) - npMin p.1 (rest.map Prod.fst) →
     0 < npMax p.2 (rest.map Prod.snd) - npMin p.2 (rest.map Prod.snd) →
      processRegion cv W H frame (.polygon (p :: rest) occP) =
        .ok (compositeWhere (cv.polyMask W H (p :: rest))
              (cv.gaussianBlur
                (kernelFinal
                  (npMax p.1 (rest.map Prod.fst) - npMin p.1 (rest.map Prod.fst))
                  (npMax p.2 (rest.map Prod.snd) - npMin p.2 (rest.map Prod.snd))).toNat
                frame)
              frame, 1)) := by
  refine ⟨?_, ?_, ?_, ?_, ?_, ?_⟩
  · unfold clip0
    omega
  · exact fun hdeg =>
      processRegion_box_skip cv W H frame x1 y1 x2 y2 occB hoccB hdeg
  · exact fun hw hh =>
      processRegion_box_go cv W H frame x1 y1 x2 y2 occB hoccB hw hh
  · exact fun hk =>
      processRegion_ellipse_go cv W H frame cx cy rx ry occE hoccE hk
  · exact fun hdeg =>
      processRegion_poly_skip cv W H frame p rest occP hoccP hdeg
  · exact fun hw hh =>
      processRegion_poly_go cv W H frame p rest occP hoccP hw hh

/-- Witness for `clamping_and_degenerate_skip` on a 100×100 frame with an
out-of-bounds box, an integer-valued ellipse and a two-point polygon. -/
theorem clamping_and_degenerate_skip_witness :
    1 ≤ (100 : ℤ) ∧ (0 : ℤ) ≠ 1 ∧
    ((0 ≤ clip0 (-5) (100 - 1) ∧ clip0 (-5) (100 - 1) ≤ 100 - 1 ∧
      0 ≤ clip0 10 (100 - 1) ∧ clip0 10 (100 - 1) ≤ 100 - 1 ∧
      0 ≤ clip0 50 (100 - 1) ∧ clip0 50 (100 - 1) ≤ 100 - 1 ∧
      0 ≤ clip0 200 (100 - 1) ∧ clip0 200 (100 - 1) ≤ 100 - 1) ∧
     ((clip0 50 (100 - 1) - clip0 (-5) (100 - 1) ≤ 0 ∨
       clip0 200 (100 - 1) - clip0 10 (100 - 1) ≤ 0) →
       processRegion cvId 100 100 frame0 (.box (-5) 10 50 200 0) = .ok (frame0, 0)) ∧
     (0 < clip0 50 (100 - 1) - clip0 (-5) (100 - 1) →
      0 < clip0 200 (100 - 1) - clip0 10 (100 - 1) →
       processRegion cvId 100 100 frame0 (.box (-5) 10 50 200 0) =
         .ok (compositeWhere
               (cvId.rectMask 100 100 (clip0 (-5) (100 - 1)) (clip0 10 (100 - 1))
                 (clip0 50 (100 - 1)) (clip0 200 (100 - 1)))
               (cvId.gaussianBlur
                 (kernelFinal (clip0 50 (100 - 1) - clip0 (-5) (100 - 1))
                   (clip0 200 (100 - 1) - clip0 10 (100 - 1))).toNat frame0)
               frame0, 1)) ∧
     (0 ≤ int035 (max (truncQ 2 * 2) (truncQ 5 * 2)) →
       processRegion cvId 100 100 frame0 (.ellipse 3 4 2 5 0) =
         .ok (compositeWhere
               (cvId.ellipseMask 100 100 (truncQ 3) (truncQ 4) (truncQ 2) (truncQ 5))
               (cvId.gaussianBlur
                 (kernelFinal (truncQ 2 * 2) (truncQ 5 * 2)).toNat frame0)
               frame0, 1)) ∧
     ((npMax (0, 0).1 ([((10 : ℤ), (5 : ℤ))].map Prod.fst) -
         npMin (0, 0).1 ([((10 : ℤ), (5 : ℤ))].map Prod.fst) ≤ 0 ∨
       npMax (0, 0).2 ([((10 : ℤ), (5 : ℤ))].map Prod.snd) -
         npMin (0, 0).2 ([((10 : ℤ), (5 : ℤ))].map Prod.snd) ≤ 0) →
       processRegion cvId 100 100 frame0 (.polygon ((0, 0) :: [(10, 5)]) 0) =
         .ok (frame0, 0)) ∧
     (0 < npMax (0, 0).1 ([((10 : ℤ), (5 : ℤ))].map Prod.fst) -
         npMin (0, 0).1 ([((10 : ℤ), (5 : ℤ))].map Prod.fst) →
      0 < npMax (0, 0).2 ([((10 : ℤ), (5 : ℤ))].map Prod.snd) -
         npMin (0, 0).2 ([((10 : ℤ), (5 : ℤ))].map Prod.snd) →
       processRegion cvId 100 100 frame0 (.polygon ((0, 0) :: [(10, 5)]) 0) =
         .ok (compositeWhere (cvId.polyMask 100 100 ((0, 0) :: [(10, 5)]))
               (cvId.gaussianBlur
                 (kernelFinal
                   (npMax (0, 0).1 ([((10 : ℤ), (5 : ℤ))].map Prod.fst) -
                     npMin (0, 0).1 ([((10 : ℤ), (5 : ℤ))].map Prod.fst))
                   (npMax (0, 0).2 ([((10 : ℤ), (5 : ℤ))].map Prod.snd) -
                     npMin (0, 0).2 ([((10 : ℤ), (5 : ℤ))].map Prod.snd))).toNat
                 frame0)
               frame0, 1))) :=
  ⟨by decide, by decide,
   clamping_and_degenerate_skip cvId 100 100 frame0 (-5) 10 50 200 0 3 4 2 5 0
     (0, 0) [(10, 5)] 0 (by decide) (by decide) (by decide) (by decide) (by decide)⟩

/-- C10: an ellipse whose radii truncate to 0 still runs the full
composite step and increments the counter — its kernel is forced from 0
to 1 by the even-to-odd adjustment — unlike a zero-extent box or a
single-point polygon, which leave the frame and the counter unchanged. -/
theorem zero_radius_ellipse_counted (cv : CV) (W H : ℤ) (frame : Frame)
    (cx cy rx ry : ℚ) (occ : ℤ) (bx by2 by3 occB : ℤ) (pp : ℤ × ℤ) (occP : ℤ)
    (h1 : truncQ rx = 0) (h2 : truncQ ry = 0) (hocc : occ ≠ 1) :
    processRegion cv W H frame (.ellipse cx cy rx ry occ) =
      .ok (compositeWhere (cv.ellipseMask W H (truncQ cx) (truncQ cy) 0 0)
            (cv.gaussianBlur 1 frame) frame, 1) ∧
    processRegion cv W H frame (.box bx by2 bx by3 occB) = .ok (frame, 0) ∧
    processRegion cv W H frame (.polygon [pp] occP) = .ok (frame, 0) := by
  refine ⟨?_, ?_, ?_⟩
  · rw [processRegion_ellipse_go cv W H frame cx cy rx ry occ hocc
      (by rw [h1, h2]; decide), h1, h2]
    rw [show (kernelFinal ((0 : ℤ) * 2) ((0 : ℤ) * 2)).toNat = 1 from by decide]
  · by_cases hB : occB = 1
    · exact processRegion_skip_occluded cv W H frame _ hB
    · exact processRegion_box_skip cv W H frame bx by2 bx by3 occB hB
        (Or.inl (by omega))
  · by_cases hP : occP = 1
    · exact processRegion_skip_occluded cv W H frame _ hP
    · exact processRegion_poly_skip cv W H frame pp [] occP hP
        (Or.inl (by simp [npMax, npMin]))

/-- Witness for `zero_radius_ellipse_counted` with literal-zero radii, a
degenerate box and a one-point polygon. -/
theorem zero_radius_ellipse_counted_witness :
    truncQ 0 = 0 ∧ (0 : ℤ) ≠ 1 ∧
    (processRegion cvId 100 100 frame0 (.ellipse 7 8 0 0 0) =
       .ok (compositeWhere (cvId.ellipseMask 100 100 (truncQ 7) (truncQ 8) 0 0)
             (cvId.gaussianBlur 1 frame0) frame0, 1) ∧
     processRegion cvId 100 100 frame0 (.box 5 5 5 9 0) = .ok (frame0, 0) ∧
     processRegion cvId 100 100 frame0 (.polygon [(3, 7)] 0) = .ok (frame0, 0)) :=
  ⟨by decide, by decide,
   zero_radius_ellipse_counted cvId 100 100 frame0 7 8 0 0 0 5 5 9 0 (3, 7) 0
     (by decide) (by decide) (by decide)⟩

/-- C5: on a successful run the frame loop writes every frame it reads
exactly once, in reading order (the written list has the source's length
and its i-th entry is the processed i-th source frame), and the loop is
not gated on the advisory total-frame-count descriptor: replacing that
field changes nothing about `process_video`. -/
theorem frames_written_once_in_order
    (cv : CV) (W H : ℤ) (ann : AnnIndex) (fs : List Frame) (idx preg : ℕ)
    (ws : List Frame) (idx2 preg2 : ℕ) (env : Env) (iv ov xf : String) (tf : ℤ)
    (hrun : frameLoop cv W H ann fs idx preg = (.ok (), ws, idx2, preg2)) :
    ws.length = fs.length ∧ idx2 = idx + fs.length ∧
    (∀ i (hi : i < fs.length) (hw : i < ws.length), ∃ n,
      processFrame cv W H (annGet ann ((idx + i : ℕ) : ℤ)) (fs.get ⟨i, hi⟩) =
        .ok (ws.get ⟨i, hw⟩, n)) ∧
    process_video (env.withTotalFrames tf) iv ov xf = process_video env iv ov xf := by
  obtain ⟨h1, h2, h3⟩ := frameLoop_ok_spec cv W H ann fs idx preg ws idx2 preg2 hrun
  exact ⟨h1, h2, h3, process_video_totalFrames env tf iv ov xf⟩

/-- Witness for `frames_written_once_in_order`: a two-frame video with no
regions is written through unchanged, and bumping the advisory frame
count of every capture changes nothing. -/
theorem frames_written_once_in_order_witness :
    frameLoop cvId 100 100 [] [frame0, frame1] 0 0 =
      (.ok (), [frame0, frame1], 2, 0) ∧
    ([frame0, frame1].length = [frame0, frame1].length ∧
     2 = 0 + [frame0, frame1].length ∧
     (∀ i (hi : i < [frame0, frame1].length) (hw : i < [frame0, frame1].length),
       ∃ n, processFrame cvId 100 100 (annGet [] ((0 + i : ℕ) : ℤ))
           ([frame0, frame1].get ⟨i, hi⟩) =
         .ok ([frame0, frame1].get ⟨i, hw⟩, n)) ∧
     process_video (envMissing.withTotalFrames 5) "v2.mp4" "o2.mp4" "a.xml" =
       process_video envMissing "v2.mp4" "o2.mp4" "a.xml") :=
  ⟨rfl, frames_written_once_in_order cvId 100 100 [] [frame0, frame1] 0 0
    [frame0, frame1] 2 0 envMissing "v2.mp4" "o2.mp4" "a.xml" 5 rfl⟩

/-- C1 counterexample: a malformed annotation document is not isolated to
its triplet.  In `envBad`, "bad.xml" raises a parse error; the batch on
two triplets aborts with that exception even though the second triplet on
its own would have succeeded. -/
theorem malformed_xml_aborts_batch :
    batch envBad [("v1.mp4", "o1.mp4", "bad.xml"), ("v2.mp4", "o2.mp4", "good.xml")] 0 0
      = .error .malformed ∧
    (process_video envBad "v2.mp4" "o2.mp4" "good.xml").result = .ok true :=
  ⟨rfl, rfl⟩

/-- C1 amended: per-triplet failure isolation holds exactly for the
failures `process_video` converts to a False return (missing input or
annotation file, failed decoder/encoder open): when no triplet raises, the
batch runs to the end, counting every triplet once as a success or a
recorded failure; a ParseError from a malformed or attribute-deficient
document escapes and aborts the batch (see the counterexample). -/
theorem batch_isolates_failures_without_exception
    (env : Env) (ts : List (String × String × String)) (sCnt fCnt : ℕ)
    (h : ∀ t ∈ ts, noRaise env t = true) :
    batch env ts sCnt fCnt =
      .ok (sCnt + ts.countP (tripletOk env), fCnt + ts.countP (tripletFailed env)) ∧
    ts.countP (tripletOk env) + ts.countP (tripletFailed env) = ts.length :=
  ⟨batch_ok_spec env ts sCnt fCnt h, countP_ok_failed env ts h⟩

/-- Witness for `batch_isolates_failures_without_exception`: a triplet
whose input video is missing fails and is recorded, and the following
triplet is still processed to success. -/
theorem batch_isolates_failures_without_exception_witness :
    (∀ t ∈ [("missing.mp4", "o1.mp4", "a1.xml"), ("v2.mp4", "o2.mp4", "a2.xml")],
        noRaise envMissing t = true) ∧
    (batch envMissing
        [("missing.mp4", "o1.mp4", "a1.xml"), ("v2.mp4", "o2.mp4", "a2.xml")] 0 0 =
      .ok (0 + List.countP (tripletOk envMissing)
            [("missing.mp4", "o1.mp4", "a1.xml"), ("v2.mp4", "o2.mp4", "a2.xml")],
           0 + List.countP (tripletFailed envMissing)
            [("missing.mp4", "o1.mp4", "a1.xml"), ("v2.mp4", "o2.mp4", "a2.xml")]) ∧
     List.countP (tripletOk envMissing)
        [("missing.mp4", "o1.mp4", "a1.xml"), ("v2.mp4", "o2.mp4", "a2.xml")] +
       List.countP (tripletFailed envMissing)
        [("missing.mp4", "o1.mp4", "a1.xml"), ("v2.mp4", "o2.mp4", "a2.xml")] = 2) :=
  ⟨by decide,
   batch_isolates_failures_without_exception envMissing
     [("missing.mp4", "o1.mp4", "a1.xml"), ("v2.mp4", "o2.mp4", "a2.xml")] 0 0
     (by decide)⟩

/-- C2 counterexample: an exception inside the frame loop (here: an
ellipse annotated with radius -3, whose kernel size computes to -1 and
makes `GaussianBlur` raise) escapes `process_video` with both the decoder
and the encoder handle still open — there is no try/finally. -/
theorem inloop_error_leaks_handles :
    (process_video envNegEllipse "v.mp4" "o.mp4" "a.xml").result = .error .cvErr ∧
    (process_video envNegEllipse "v.mp4" "o.mp4" "a.xml").capOpenAtExit = true ∧
    (process_video envNegEllipse "v.mp4" "o.mp4" "a.xml").outOpenAtExit = true :=
  ⟨rfl, rfl, rfl⟩

/-- C2 amended: both handles are released on every exit of `process_video`
except the unexpected-error exit from the frame loop: whenever the call
does not escape with an in-loop exception, both the decoder and the
encoder handle are closed when control returns (on open failures the
failed handle was never acquired). -/
theorem handles_released_unless_inloop_error (env : Env) (iv ov xf : String)
    (h : (process_video env iv ov xf).result ≠ .error .cvErr) :
    (process_video env iv ov xf).capOpenAtExit = false ∧
    (process_video env iv ov xf).outOpenAtExit = false :=
  (process_video_handle_cases env iv ov xf).resolve_right (fun hc => h hc.1)

/-- Witness for `handles_released_unless_inloop_error` on a successfully
processed triplet. -/
theorem handles_released_unless_inloop_error_witness :
    (process_video envMissing "v2.mp4" "o2.mp4" "a.xml").result ≠ .error .cvErr ∧
    ((process_video envMissing "v2.mp4" "o2.mp4" "a.xml").capOpenAtExit = false ∧
     (process_video envMissing "v2.mp4" "o2.mp4" "a.xml").outOpenAtExit = false) := by
  have hne : (process_video envMissing "v2.mp4" "o2.mp4" "a.xml").result ≠ .error .cvErr := by
    rw [show (process_video envMissing "v2.mp4" "o2.mp4" "a.xml").result = .ok true from rfl]
    intro hcon
    exact Except.noConfusion hcon
  exact ⟨hne, handles_released_unless_inloop_error envMissing "v2.mp4" "o2.mp4" "a.xml" hne⟩

end Blur
